import Mathlib

/-!
Verification development for the ALICE-FIX wire codec and session sequencer.

The Rust source (src/parser.rs, src/builder.rs, src/message.rs,
src/session.rs, src/convert.rs, src/tag.rs) is shallowly embedded here:

* byte slices (`&[u8]`, `Vec<u8>`) become `List Nat` (each element a byte
  value, 0..255 in every reachable use);
* Rust `String` values become the `List Nat` of their UTF-8 bytes;
* `HashMap<u32, String>` becomes an association list with overwrite-on-insert
  (`insertField`); the observable interface of the map is `lookupField`;
* machine integers become `Nat` with an explicit modulus where the source
  wraps (`wrapping_add` on `u32`, `u64` counters), and checked arithmetic
  (`checked_mul`/`checked_add`) becomes an explicit bound test against the
  integer type's maximum;
* fallible code returns `Option` / `Except`.

A second family of definitions (suffix `C`) mirrors the same code with every
partial Rust operation (panicking slice index, unchecked subtraction) made
explicit as an `Option`: `none` models a panic.  The theorem for the totality
claim proves the `C` mirror never returns `none` and agrees with the plain
embedding.
-/

/-- SOH byte, the FIX field delimiter (`parser.rs`: `pub const SOH: u8 = 0x01`). -/
def SOH : Nat := 1

/-- Errors of `parse` (`parser.rs`: `enum ParseError`).  The `String` payloads
of `MalformedField` / `InvalidTag` (produced by `String::from_utf8_lossy`)
are carried here as the raw byte lists handed to the lossy conversion. -/
inductive ParseError where
  | EmptyInput : ParseError
  | MissingBeginString : ParseError
  | MissingBodyLength : ParseError
  | MissingChecksum : ParseError
  | InvalidChecksum (expected : Nat) (actual : Nat) : ParseError
  | MalformedField (raw : List Nat) : ParseError
  | InvalidTag (raw : List Nat) : ParseError
deriving DecidableEq, Repr

/-- Checksum of `parser.rs` (`fn compute_checksum`): a `u32` accumulator with
`wrapping_add` (modelled by `% 2^32`), masked with `0xFF` at the end
(modelled by `% 256`). -/
def compute_checksum (bytes : List Nat) : Nat :=
  (bytes.foldl (fun sum b => (sum + b) % 4294967296) 0) % 256

/-- Checksum of `builder.rs` (`fn compute_checksum`), textually identical to
the parser's function; kept separate because the claim speaks of the
function used by each side. -/
def builder_checksum (bytes : List Nat) : Nat :=
  (bytes.foldl (fun sum b => (sum + b) % 4294967296) 0) % 256

/-- Accumulating digit loop shared by `parse_tag_number`, `parse_body_length`
and `parse_checksum_value`: per byte, require an ASCII digit, then
`n.checked_mul(10)?.checked_add(digit)?` against the integer type's maximum
`limit` (the combined check fails exactly when `n * 10 + digit > limit`). -/
def checkedDigits (limit : Nat) : Nat → List Nat → Option Nat
  | n, [] => some n
  | n, b :: bs =>
    if 48 ≤ b ∧ b ≤ 57 then
      if n * 10 + (b - 48) ≤ limit then checkedDigits limit (n * 10 + (b - 48)) bs
      else none
    else none

/-- Decimal `u32` from ASCII digits (`parser.rs`: `fn parse_tag_number`);
`none` on empty input, non-digits, or `u32` overflow. -/
def parse_tag_number (bytes : List Nat) : Option Nat :=
  if bytes.isEmpty then none else checkedDigits 4294967295 0 bytes

/-- Decimal `usize` from ASCII digits (`parser.rs`: `fn parse_body_length`);
`usize` is 64-bit here. -/
def parse_body_length (bytes : List Nat) : Option Nat :=
  if bytes.isEmpty then none else checkedDigits 18446744073709551615 0 bytes

/-- Checksum digits as `u16` folded with `& 0xFF` (`parser.rs`:
`fn parse_checksum_value`). -/
def parse_checksum_value (bytes : List Nat) : Option Nat :=
  if bytes.isEmpty then none else (checkedDigits 65535 0 bytes).map (fun n => n % 256)

/-- Split one raw field (`parser.rs`: `fn split_field`): position of the first
`=` byte (61); `field.iter().position` returning `None` corresponds to
`findIdx` returning `field.length`. -/
def split_field (field : List Nat) : Except ParseError (Nat × List Nat) :=
  let eqPos := field.findIdx (fun b => b == 61)
  if eqPos < field.length then
    let tagBytes := field.take eqPos
    match parse_tag_number tagBytes with
    | some t => .ok (t, field.drop (eqPos + 1))
    | none => .error (.InvalidTag tagBytes)
  else .error (.MalformedField field)

/-- Slice left for `FieldIter` after one step (`parser.rs`, `FieldIter::next`):
past the SOH at index `e` when one was found (`&remaining[end + 1..]`),
otherwise the empty slice. -/
def segRest (remaining : List Nat) : List Nat :=
  let e := remaining.findIdx (fun b => b == SOH)
  if e < remaining.length then remaining.drop (e + 1) else []

/-- One pass of `FieldIter` (`parser.rs`): repeatedly find the next SOH
(`position` or end of slice), emit the slice before it (`&remaining[..end]`),
skip empty segments.  The fuel argument only bounds the recursion;
`input.length` steps always suffice because each step consumes at least one
byte. -/
def fieldSegsGo : Nat → List Nat → List (List Nat)
  | 0, _ => []
  | fuel + 1, remaining =>
    if remaining.isEmpty then []
    else
      let field := remaining.take (remaining.findIdx (fun b => b == SOH))
      if field.isEmpty then fieldSegsGo fuel (segRest remaining)
      else field :: fieldSegsGo fuel (segRest remaining)

/-- All fields yielded by `FieldIter::new(input)`, in order. -/
def fieldIter (input : List Nat) : List (List Nat) :=
  fieldSegsGo input.length input

/-- Continuation byte test for UTF-8 (0x80–0xBF). -/
def isCont (b : Nat) : Bool := 128 ≤ b ∧ b ≤ 191

/-- UTF-8 validity of a byte list, as checked by `core::str::from_utf8`
(RFC 3629: no overlongs, no surrogates, max U+10FFFF). -/
def validUtf8 : List Nat → Bool
  | [] => true
  | b :: bs =>
    if b ≤ 127 then validUtf8 bs
    else
      match bs with
      | [] => false
      | c :: bs2 =>
        if 194 ≤ b ∧ b ≤ 223 then isCont c && validUtf8 bs2
        else
          match bs2 with
          | [] => false
          | d :: bs3 =>
            if b = 224 then (160 ≤ c ∧ c ≤ 191 : Bool) && isCont d && validUtf8 bs3
            else if 225 ≤ b ∧ b ≤ 236 then isCont c && isCont d && validUtf8 bs3
            else if b = 237 then (128 ≤ c ∧ c ≤ 159 : Bool) && isCont d && validUtf8 bs3
            else if 238 ≤ b ∧ b ≤ 239 then isCont c && isCont d && validUtf8 bs3
            else
              match bs3 with
              | [] => false
              | e :: bs4 =>
                if b = 240 then (144 ≤ c ∧ c ≤ 191 : Bool) && isCont d && isCont e && validUtf8 bs4
                else if 241 ≤ b ∧ b ≤ 243 then isCont c && isCont d && isCont e && validUtf8 bs4
                else if b = 244 then (128 ≤ c ∧ c ≤ 143 : Bool) && isCont d && isCont e && validUtf8 bs4
                else false

/-- Model of `core::str::from_utf8(v).unwrap_or("").to_string()`: the bytes
themselves when they form valid UTF-8, the empty string otherwise. -/
def utf8OrEmpty (bytes : List Nat) : List Nat :=
  if validUtf8 bytes then bytes else []

/-- Association-list model of `HashMap::insert` (overwrite on duplicate key). -/
def insertField (k : Nat) (v : List Nat) : List (Nat × List Nat) → List (Nat × List Nat)
  | [] => [(k, v)]
  | (k2, v2) :: rest => if k = k2 then (k, v) :: rest else (k2, v2) :: insertField k v rest

/-- Association-list model of `HashMap::get`. -/
def lookupField (k : Nat) : List (Nat × List Nat) → Option (List Nat)
  | [] => none
  | (k2, v2) :: rest => if k = k2 then some v2 else lookupField k rest

/-- Mutable state of the field-collection loop in `parse` (`msg_type`,
`fields`, `saw_checksum`). -/
structure LoopState where
  msgType : List Nat
  fields : List (Nat × List Nat)
  sawChecksum : Bool
deriving DecidableEq, Repr

/-- Field-collection loop of `parse` (`for field_bytes in iter { ... }`):
tag 10 validates the checksum, tag 35 overwrites `msg_type`, anything else
is inserted into `fields`; errors return early. -/
def parseLoop (actualChk : Nat) : LoopState → List (List Nat) → Except ParseError LoopState
  | st, [] => .ok st
  | st, f :: fs =>
    match split_field f with
    | .error e => .error e
    | .ok (t, vBytes) =>
      if t = 10 then
        match parse_checksum_value vBytes with
        | none => .error (.InvalidChecksum 0 actualChk)
        | some expectedChk =>
          if actualChk ≠ expectedChk then .error (.InvalidChecksum expectedChk actualChk)
          else parseLoop actualChk { st with sawChecksum := true } fs
      else if t = 35 then
        parseLoop actualChk { st with msgType := utf8OrEmpty vBytes } fs
      else
        parseLoop actualChk { st with fields := insertField t (utf8OrEmpty vBytes) st.fields } fs

/-- Parsed FIX message (`message.rs`: `struct FixMessage`). -/
structure FixMessage where
  begin_string : List Nat
  msg_type : List Nat
  fields : List (Nat × List Nat)
deriving DecidableEq, Repr

/-- Constructor `FixMessage::new`. -/
def FixMessage.new (beginString msgType : List Nat) : FixMessage :=
  ⟨beginString, msgType, []⟩

/-- Mutator `FixMessage::set` (`self.fields.insert(tag, value.to_string())`). -/
def FixMessage.set (m : FixMessage) (tag : Nat) (value : List Nat) : FixMessage :=
  { m with fields := insertField tag value m.fields }

/-- Parser entry point (`parser.rs`: `pub fn parse`).  Field 0 must be tag 8,
field 1 must be tag 9; `body_end` is `input.len().saturating_sub(7)`
(`Nat` subtraction is saturating); the `input.length < 7` test models the
`checked_sub(7).ok_or(MissingChecksum)` step; the checksum is computed over
`input[..len-7]`. -/
def parse (input : List Nat) : Except ParseError FixMessage :=
  if input.isEmpty then .error .EmptyInput
  else
    match fieldIter input with
    | [] => .error .EmptyInput
    | field0 :: rest0 =>
      match split_field field0 with
      | .error e => .error e
      | .ok (tag0, beginBytes) =>
        if tag0 ≠ 8 then .error .MissingBeginString
        else
          match rest0 with
          | [] => .error .MissingBodyLength
          | field1 :: rest =>
            match split_field field1 with
            | .error e => .error e
            | .ok (tag1, bodyLenBytes) =>
              if tag1 ≠ 9 then .error .MissingBodyLength
              else
                let bodyStart := (field0.length + 1) + (field1.length + 1)
                match parse_body_length bodyLenBytes with
                | none => .error .MissingBodyLength
                | some declaredLen =>
                  let bodyEnd := input.length - 7
                  if bodyEnd < bodyStart ∨ bodyEnd - bodyStart ≠ declaredLen then
                    .error .MissingBodyLength
                  else if input.length < 7 then .error .MissingChecksum
                  else
                    let actualChk := compute_checksum (input.take (input.length - 7))
                    match parseLoop actualChk ⟨[], [], false⟩ rest with
                    | .error e => .error e
                    | .ok st =>
                      if !st.sawChecksum then .error .MissingChecksum
                      else .ok ⟨utf8OrEmpty beginBytes, st.msgType, st.fields⟩

/-- Decimal digit expansion used by `to_string()` on unsigned integers,
least-significant digit pushed first onto `acc`.  The fuel argument only
bounds the recursion (`n` itself always suffices, since a number has at most
`n` digits). -/
def natDigitsGo : Nat → Nat → List Nat → List Nat
  | 0, _, acc => acc
  | fuel + 1, n, acc =>
    if n = 0 then acc else natDigitsGo fuel (n / 10) ((n % 10 + 48) :: acc)

/-- ASCII decimal representation of a `Nat`, as produced by `to_string()`. -/
def natToDigits (n : Nat) : List Nat :=
  if n = 0 then [48] else natDigitsGo n n []

/-- ASCII decimal representation of an `Int`, as produced by `i64::to_string()`
(45 is the `-` sign). -/
def intToDigits (i : Int) : List Nat :=
  if i < 0 then 45 :: natToDigits i.natAbs else natToDigits i.toNat

/-- One serialized field (`builder.rs`: `fn append_field` writes
`"<tag>=<value>\x01"`; modelled as the produced segment, appended by `++`
at each call site). -/
def appendField (tag : Nat) (value : List Nat) : List Nat :=
  natToDigits tag ++ [61] ++ value ++ [SOH]

/-- Three zero-padded checksum digits, as produced by `format!("10={chk:03}")`
for a value below 256. -/
def checksum3 (c : Nat) : List Nat :=
  [c / 100 + 48, c / 10 % 10 + 48, c % 10 + 48]

/-- Builder (`builder.rs`: `struct FixBuilder`): version and type fixed at
construction, staged `(tag, value)` pairs in call order (`field`,
`field_i64`, `field_u64` all push onto this list). -/
structure FixBuilder where
  begin_string : List Nat
  msg_type : List Nat
  fields : List (Nat × List Nat)
deriving DecidableEq, Repr

/-- Body assembled by `FixBuilder::build` step 1: `"35=<msg_type>\x01"`
followed by each staged field in insertion order. -/
def FixBuilder.body (b : FixBuilder) : List Nat :=
  appendField 35 b.msg_type ++ (b.fields.map (fun p => appendField p.1 p.2)).flatten

/-- Serializer (`builder.rs`: `FixBuilder::build`): prefix `8=` and `9=`
fields, then the body, then `"10=<checksum:03>\x01"` where the checksum is
computed over everything before it.  `[49, 48, 61]` is `"10="`. -/
def FixBuilder.build (b : FixBuilder) : List Nat :=
  let hdr := appendField 8 b.begin_string ++ appendField 9 (natToDigits b.body.length)
  let out := hdr ++ b.body
  out ++ [49, 48, 61] ++ checksum3 (builder_checksum out) ++ [SOH]

/-- Map obtained by inserting staged pairs in order into an empty map; the
decoded `fields` of a built message equals this. -/
def stagedMap (fs : List (Nat × List Nat)) : List (Nat × List Nat) :=
  fs.foldl (fun m p => insertField p.1 p.2 m) []

/-- Order side from the external `alice_ledger` crate (used by `convert.rs`
and `session.rs`). -/
inductive Side where
  | Bid : Side
  | Ask : Side
deriving DecidableEq, Repr

/-- Order type from the external `alice_ledger` crate; the `StopLimit`
variant's payload is irrelevant to the codec (matched with `{ .. }`). -/
inductive OrderType where
  | Market : OrderType
  | Limit : OrderType
  | StopLimit : OrderType
deriving DecidableEq, Repr

/-- Time-in-force from the external `alice_ledger` crate; the `GTD` variant's
payload is irrelevant to the codec. -/
inductive TimeInForce where
  | GTC : TimeInForce
  | IOC : TimeInForce
  | FOK : TimeInForce
  | GTD : TimeInForce
deriving DecidableEq, Repr

/-- Order record from the external `alice_ledger` crate, with exactly the
fields `session.rs` reads (`id.0 : u64`, `price : i64`, `quantity : u64`). -/
structure Order where
  id : Nat
  side : Side
  order_type : OrderType
  price : Int
  quantity : Nat
  filled_quantity : Nat
  timestamp_ns : Nat
  time_in_force : TimeInForce
deriving DecidableEq, Repr

/-- Conversion `convert.rs`: `alice_side_to_fix` (`"1"` / `"2"`). -/
def alice_side_to_fix : Side → List Nat
  | .Bid => [49]
  | .Ask => [50]

/-- Conversion `convert.rs`: `alice_ord_type_to_fix` (`"1"` / `"2"` / `"2"`). -/
def alice_ord_type_to_fix : OrderType → List Nat
  | .Market => [49]
  | .Limit => [50]
  | .StopLimit => [50]

/-- Conversion `convert.rs`: `alice_tif_to_fix` (`"1"` / `"3"` / `"4"` / `"6"`). -/
def alice_tif_to_fix : TimeInForce → List Nat
  | .GTC => [49]
  | .IOC => [51]
  | .FOK => [52]
  | .GTD => [54]

/-- Session states (`session.rs`: `enum SessionState`). -/
inductive SessionState where
  | Disconnected : SessionState
  | LogonSent : SessionState
  | Active : SessionState
  | LogoutSent : SessionState
deriving DecidableEq, Repr

/-- Session context (`session.rs`: `struct FixSession`); the two counters are
`u64`, so every increment is taken modulo `2^64`. -/
structure FixSession where
  sender_comp_id : List Nat
  target_comp_id : List Nat
  begin_string : List Nat
  outgoing_seq : Nat
  incoming_seq : Nat
  state : SessionState
deriving DecidableEq, Repr

/-- Constructor `FixSession::new`: both counters start at 1, state
`Disconnected`. -/
def FixSession.new (sender target beginString : List Nat) : FixSession :=
  ⟨sender, target, beginString, 1, 1, .Disconnected⟩

/-- Operation `FixSession::next_outgoing_seq`: returns the current value and
post-increments the `u64` counter. -/
def FixSession.next_outgoing_seq (s : FixSession) : Nat × FixSession :=
  (s.outgoing_seq, { s with outgoing_seq := (s.outgoing_seq + 1) % 18446744073709551616 })

/-- Operation `FixSession::validate_incoming_seq`: success exactly on a
match, advancing the `u64` expected counter; no state change on mismatch. -/
def FixSession.validate_incoming_seq (s : FixSession) (seq : Nat) : Bool × FixSession :=
  if seq = s.incoming_seq then
    (true, { s with incoming_seq := (s.incoming_seq + 1) % 18446744073709551616 })
  else (false, s)

/-- Helper `FixSession::build_admin`: standard header fields 49, 56, 34. -/
def FixSession.build_admin (s : FixSession) (msgType : List Nat) (seq : Nat) : List Nat :=
  FixBuilder.build ⟨s.begin_string, msgType,
    [(49, s.sender_comp_id), (56, s.target_comp_id), (34, natToDigits seq)]⟩

/-- Operation `FixSession::build_logon` (`"A"` = byte 65): consumes an
ordinal, moves to `LogonSent`, returns the encoded bytes. -/
def FixSession.build_logon (s : FixSession) : List Nat × FixSession :=
  let r := s.next_outgoing_seq
  let s2 := { r.2 with state := SessionState.LogonSent }
  (s2.build_admin [65] r.1, s2)

/-- Operation `FixSession::build_logout` (`"5"` = byte 53): consumes an
ordinal, moves to `LogoutSent`. -/
def FixSession.build_logout (s : FixSession) : List Nat × FixSession :=
  let r := s.next_outgoing_seq
  let s2 := { r.2 with state := SessionState.LogoutSent }
  (s2.build_admin [53] r.1, s2)

/-- Operation `FixSession::build_heartbeat` (`"0"` = byte 48): consumes an
ordinal, leaves the state alone. -/
def FixSession.build_heartbeat (s : FixSession) : List Nat × FixSession :=
  let r := s.next_outgoing_seq
  (r.2.build_admin [48] r.1, r.2)

/-- Operation `FixSession::build_new_order` (`"D"` = byte 68): consumes an
ordinal and stages the order fields 11, 55, 54, 40, 44, 38, 59 after the
standard header. -/
def FixSession.build_new_order (s : FixSession) (order : Order) (symbol : List Nat) :
    List Nat × FixSession :=
  let r := s.next_outgoing_seq
  (FixBuilder.build ⟨s.begin_string, [68],
    [(49, r.2.sender_comp_id), (56, r.2.target_comp_id), (34, natToDigits r.1),
     (11, natToDigits order.id), (55, symbol), (54, alice_side_to_fix order.side),
     (40, alice_ord_type_to_fix order.order_type), (44, intToDigits order.price),
     (38, natToDigits order.quantity), (59, alice_tif_to_fix order.time_in_force)]⟩,
   r.2)

/-- A public mutating operation of the sequencer, for reachability statements. -/
inductive SessionOp where
  | logon : SessionOp
  | logout : SessionOp
  | heartbeat : SessionOp
  | newOrder (order : Order) (symbol : List Nat) : SessionOp
  | validate (seq : Nat) : SessionOp
  | nextSeq : SessionOp

/-- State reached after one public operation (the returned bytes/flags are
discarded; only the successor session matters for reachability). -/
def applyOp (s : FixSession) : SessionOp → FixSession
  | .logon => (s.build_logon).2
  | .logout => (s.build_logout).2
  | .heartbeat => (s.build_heartbeat).2
  | .newOrder order symbol => (s.build_new_order order symbol).2
  | .validate seq => (s.validate_incoming_seq seq).2
  | .nextSeq => (s.next_outgoing_seq).2

/-- State reached after a finite sequence of public operations. -/
def runOps (s : FixSession) (ops : List SessionOp) : FixSession :=
  ops.foldl applyOp s

/-- Guarded slice prefix: models `&xs[..n]`, which panics when `n` exceeds the
slice length (`none` = panic). -/
def takeG (xs : List Nat) (n : Nat) : Option (List Nat) :=
  if n ≤ xs.length then some (xs.take n) else none

/-- Guarded slice suffix: models `&xs[n..]`, which panics when `n` exceeds the
slice length (`none` = panic). -/
def dropG (xs : List Nat) (n : Nat) : Option (List Nat) :=
  if n ≤ xs.length then some (xs.drop n) else none

/-- Guarded subtraction: models unsigned `a - b`, which panics on underflow
(`none` = panic); also the semantics of `checked_sub` when the call site
treats `None` itself. -/
def subG (a b : Nat) : Option Nat :=
  if b ≤ a then some (a - b) else none

/-- Panic-explicit mirror of `checkedDigits`: the `b - b'0'` subtraction goes
through `subG` (it is guarded in the source by `is_ascii_digit`).  Outer
`none` = panic; inner `none` = the digit parse legitimately failing. -/
def checkedDigitsC (limit : Nat) : Nat → List Nat → Option (Option Nat)
  | n, [] => some (some n)
  | n, b :: bs =>
    if 48 ≤ b ∧ b ≤ 57 then
      match subG b 48 with
      | none => none
      | some d =>
        if n * 10 + d ≤ limit then checkedDigitsC limit (n * 10 + d) bs
        else some none
    else some none

/-- Panic-explicit mirror of `parse_tag_number`. -/
def parse_tag_numberC (bytes : List Nat) : Option (Option Nat) :=
  if bytes.isEmpty then some none else checkedDigitsC 4294967295 0 bytes

/-- Panic-explicit mirror of `parse_body_length`. -/
def parse_body_lengthC (bytes : List Nat) : Option (Option Nat) :=
  if bytes.isEmpty then some none else checkedDigitsC 18446744073709551615 0 bytes

/-- Panic-explicit mirror of `parse_checksum_value`. -/
def parse_checksum_valueC (bytes : List Nat) : Option (Option Nat) :=
  if bytes.isEmpty then some none
  else (checkedDigitsC 65535 0 bytes).map (fun r => r.map (fun n => n % 256))

/-- Panic-explicit mirror of `split_field`: the slices `&field[..eq]` and
`&field[eq + 1..]` go through the guarded primitives. -/
def split_fieldC (field : List Nat) : Option (Except ParseError (Nat × List Nat)) :=
  let eqPos := field.findIdx (fun b => b == 61)
  if eqPos < field.length then
    match takeG field eqPos with
    | none => none
    | some tagBytes =>
      match dropG field (eqPos + 1) with
      | none => none
      | some valueBytes =>
        match parse_tag_numberC tagBytes with
        | none => none
        | some none => some (.error (.InvalidTag tagBytes))
        | some (some t) => some (.ok (t, valueBytes))
  else some (.error (.MalformedField field))

/-- Panic-explicit mirror of `FieldIter`: the slices `&remaining[..end]` and
`&remaining[end + 1..]` go through the guarded primitives.  Running out of
fuel also yields `none`; `input.length + 1` units always suffice. -/
def fieldSegsGoC : Nat → List Nat → Option (List (List Nat))
  | 0, _ => none
  | fuel + 1, remaining =>
    if remaining.isEmpty then some []
    else
      let e := remaining.findIdx (fun b => b == SOH)
      match takeG remaining e with
      | none => none
      | some field =>
        match (if e < remaining.length then dropG remaining (e + 1) else some []) with
        | none => none
        | some rest =>
          match fieldSegsGoC fuel rest with
          | none => none
          | some segs => some (if field.isEmpty then segs else field :: segs)

/-- Panic-explicit mirror of the field-collection loop of `parse`. -/
def parseLoopC (actualChk : Nat) : LoopState → List (List Nat) → Option (Except ParseError LoopState)
  | st, [] => some (.ok st)
  | st, f :: fs =>
    match split_fieldC f with
    | none => none
    | some (.error e) => some (.error e)
    | some (.ok (t, vBytes)) =>
      if t = 10 then
        match parse_checksum_valueC vBytes with
        | none => none
        | some none => some (.error (.InvalidChecksum 0 actualChk))
        | some (some expectedChk) =>
          if actualChk ≠ expectedChk then some (.error (.InvalidChecksum expectedChk actualChk))
          else parseLoopC actualChk { st with sawChecksum := true } fs
      else if t = 35 then
        parseLoopC actualChk { st with msgType := utf8OrEmpty vBytes } fs
      else
        parseLoopC actualChk { st with fields := insertField t (utf8OrEmpty vBytes) st.fields } fs

/-- Panic-explicit mirror of `parse`: every partial Rust operation in the
decode path is explicit — the two header slices' arithmetic, the
`saturating_sub` (total, plain `Nat` subtraction), the short-circuited
`body_end < body_start || (body_end - body_start) != declared_len` (the
subtraction is only reached when the guard has failed), the
`checked_sub(7).ok_or(MissingChecksum)`, and the checksum slice
`&input[..chk_offset]`.  `none` models a panic. -/
def parseChecked (input : List Nat) : Option (Except ParseError FixMessage) :=
  if input.isEmpty then some (.error .EmptyInput)
  else
    match fieldSegsGoC (input.length + 1) input with
    | none => none
    | some [] => some (.error .EmptyInput)
    | some (field0 :: rest0) =>
      match split_fieldC field0 with
      | none => none
      | some (.error e) => some (.error e)
      | some (.ok (tag0, beginBytes)) =>
        if tag0 ≠ 8 then some (.error .MissingBeginString)
        else
          match rest0 with
          | [] => some (.error .MissingBodyLength)
          | field1 :: rest =>
            match split_fieldC field1 with
            | none => none
            | some (.error e) => some (.error e)
            | some (.ok (tag1, bodyLenBytes)) =>
              if tag1 ≠ 9 then some (.error .MissingBodyLength)
              else
                let bodyStart := (field0.length + 1) + (field1.length + 1)
                match parse_body_lengthC bodyLenBytes with
                | none => none
                | some none => some (.error .MissingBodyLength)
                | some (some declaredLen) =>
                  let bodyEnd := input.length - 7
                  if bodyEnd < bodyStart then some (.error .MissingBodyLength)
                  else
                    match subG bodyEnd bodyStart with
                    | none => none
                    | some measured =>
                      if measured ≠ declaredLen then some (.error .MissingBodyLength)
                      else
                        match subG input.length 7 with
                        | none => some (.error .MissingChecksum)
                        | some chkOffset =>
                          match takeG input chkOffset with
                          | none => none
                          | some beforeChk =>
                            let actualChk := compute_checksum beforeChk
                            match parseLoopC actualChk ⟨[], [], false⟩ rest with
                            | none => none
                            | some (.error e) => some (.error e)
                            | some (.ok st) =>
                              if !st.sawChecksum then some (.error .MissingChecksum)
                              else some (.ok ⟨utf8OrEmpty beginBytes, st.msgType, st.fields⟩)

/-- Numeric value of an ASCII digit string read left to right (specification
device used to relate `natToDigits` with `checkedDigits`). -/
def valAux (a : Nat) (ds : List Nat) : Nat :=
  ds.foldl (fun v b => v * 10 + (b - 48)) a

instance {ε α : Type} [DecidableEq ε] [DecidableEq α] : DecidableEq (Except ε α) := fun x y =>
  match x, y with
  | .ok a, .ok b => decidable_of_iff (a = b) (by simp)
  | .error a, .error b => decidable_of_iff (a = b) (by simp)
  | .ok _, .error _ => isFalse (by simp)
  | .error _, .ok _ => isFalse (by simp)

/-!  Checksum arithmetic. -/

/-- Folding with a wrapping accumulator is addition modulo the wrap. -/
theorem foldl_wrap_add (M : Nat) (l : List Nat) :
    ∀ a : Nat, l.foldl (fun sum b => (sum + b) % M) (a % M) = (a + l.sum) % M := by
  induction l with
  | nil => intro a; simp
  | cons b l ih =>
    intro a
    simp only [List.foldl_cons, List.sum_cons]
    rw [Nat.mod_add_mod, ih (a + b)]
    ring_nf

/-- The parser checksum is exactly the byte sum modulo 256, despite the
wrapping 32-bit accumulator. -/
theorem compute_checksum_eq_sum (l : List Nat) : compute_checksum l = l.sum % 256 := by
  unfold compute_checksum
  have h0 : (0 : Nat) = 0 % 4294967296 := by norm_num
  rw [h0, foldl_wrap_add, Nat.zero_add]
  exact Nat.mod_mod_of_dvd _ (by norm_num)

/-- The checksum is a byte. -/
theorem compute_checksum_lt (l : List Nat) : compute_checksum l < 256 :=
  Nat.mod_lt _ (by norm_num)

/-- The builder checksum function is the same function as the parser one. -/
theorem builder_checksum_eq (l : List Nat) : builder_checksum l = compute_checksum l := rfl

/-! Decimal printing and checked decimal parsing. -/

/-- Exhausted value renders nothing more. -/
theorem natDigitsGo_zero (fuel : Nat) (acc : List Nat) : natDigitsGo fuel 0 acc = acc := by
  cases fuel <;> simp [natDigitsGo]

/-- Every byte produced by the digit printer is an ASCII digit. -/
theorem natDigitsGo_digits :
    ∀ (fuel n : Nat) (acc : List Nat), (∀ x ∈ acc, 48 ≤ x ∧ x ≤ 57) →
      ∀ x ∈ natDigitsGo fuel n acc, 48 ≤ x ∧ x ≤ 57 := by
  intro fuel
  induction fuel with
  | zero => intro n acc hacc; simpa [natDigitsGo] using hacc
  | succ fuel ih =>
    intro n acc hacc
    by_cases h : n = 0
    · simpa [natDigitsGo, h] using hacc
    · simp only [natDigitsGo, h, if_false]
      refine ih _ _ ?_
      intro x hx
      rcases List.mem_cons.mp hx with hx | hx
      · subst hx; constructor <;> omega
      · exact hacc x hx

/-- Every byte of `natToDigits n` is an ASCII digit. -/
theorem natToDigits_digits (n : Nat) : ∀ x ∈ natToDigits n, 48 ≤ x ∧ x ≤ 57 := by
  unfold natToDigits
  by_cases h : n = 0
  · simp [h]
  · simp only [h, if_false]
    exact natDigitsGo_digits n n [] (by simp)

/-- The digit printer strictly lengthens its accumulator on positive input. -/
theorem natDigitsGo_longer :
    ∀ (fuel n : Nat) (acc : List Nat), 0 < n → n ≤ fuel →
      acc.length < (natDigitsGo fuel n acc).length := by
  intro fuel
  induction fuel with
  | zero => intro n acc hn hf; omega
  | succ fuel ih =>
    intro n acc hn hf
    have h : n ≠ 0 := by omega
    simp only [natDigitsGo, h, if_false]
    by_cases h10 : n / 10 = 0
    · rw [h10, natDigitsGo_zero]; simp
    · have hlt : n / 10 < n := Nat.div_lt_self hn (by norm_num)
      have := ih (n / 10) ((n % 10 + 48) :: acc) (Nat.pos_of_ne_zero h10) (by omega)
      simp only [List.length_cons] at this
      omega

/-- A printed number is never the empty string. -/
theorem natToDigits_ne_nil (n : Nat) : natToDigits n ≠ [] := by
  unfold natToDigits
  by_cases h : n = 0
  · simp [h]
  · simp only [h, if_false]
    have := natDigitsGo_longer n n [] (Nat.pos_of_ne_zero h) le_rfl
    intro hc
    rw [hc] at this
    simp at this

/-- Unfolding of `valAux` on a cons cell. -/
theorem valAux_cons (a b : Nat) (ds : List Nat) :
    valAux a (b :: ds) = valAux (a * 10 + (b - 48)) ds := rfl

/-- Reading digits never decreases the accumulated value. -/
theorem valAux_le (ds : List Nat) : ∀ a : Nat, a ≤ valAux a ds := by
  induction ds with
  | nil => intro a; exact le_rfl
  | cons b ds ih =>
    intro a
    rw [valAux_cons]
    calc a ≤ a * 10 + (b - 48) := by nlinarith
    _ ≤ valAux (a * 10 + (b - 48)) ds := ih _

/-- The checked digit loop succeeds on pure digit strings whose value fits,
and returns that value. -/
theorem checkedDigits_complete :
    ∀ (ds : List Nat) (limit a : Nat), (∀ x ∈ ds, 48 ≤ x ∧ x ≤ 57) →
      valAux a ds ≤ limit → checkedDigits limit a ds = some (valAux a ds) := by
  intro ds
  induction ds with
  | nil => intro limit a _ _; rfl
  | cons b ds ih =>
    intro limit a hds hv
    have hb := hds b (List.mem_cons_self b ds)
    rw [valAux_cons] at hv ⊢
    have hstep : a * 10 + (b - 48) ≤ limit :=
      le_trans (valAux_le ds (a * 10 + (b - 48))) hv
    simp only [checkedDigits, hb, and_self, if_true, hstep]
    exact ih limit (a * 10 + (b - 48)) (fun x hx => hds x (List.mem_cons_of_mem b hx)) hv

/-- Value of the digit printer's output: printing `n` in front of `acc`
multiplies the accumulated prefix by a positive power of ten and adds `n`. -/
theorem natDigitsGo_val :
    ∀ n : Nat, 0 < n → ∀ (fuel : Nat) (acc : List Nat) (a : Nat), n ≤ fuel →
      ∃ t : Nat, 0 < t ∧ valAux a (natDigitsGo fuel n acc) = valAux (a * t + n) acc := by
  intro n
  induction n using Nat.strong_induction_on with
  | _ n ihn =>
    intro hn fuel acc a hf
    obtain ⟨f, rfl⟩ : ∃ f, fuel = f + 1 := ⟨fuel - 1, by omega⟩
    have h : n ≠ 0 := by omega
    simp only [natDigitsGo, h, if_false]
    by_cases h10 : n / 10 = 0
    · have hlt : n < 10 := by omega
      rw [h10, natDigitsGo_zero, valAux_cons]
      refine ⟨10, by norm_num, ?_⟩
      congr 1
      have : n % 10 + 48 - 48 = n % 10 := by omega
      rw [this, Nat.mod_eq_of_lt hlt]
    · have hdlt : n / 10 < n := Nat.div_lt_self hn (by norm_num)
      obtain ⟨t, ht, heq⟩ :=
        ihn (n / 10) hdlt (Nat.pos_of_ne_zero h10) f ((n % 10 + 48) :: acc) a (by omega)
      refine ⟨t * 10, by positivity, ?_⟩
      rw [heq, valAux_cons]
      congr 1
      have hsub : n % 10 + 48 - 48 = n % 10 := by omega
      rw [hsub]
      calc (a * t + n / 10) * 10 + n % 10
          = a * (t * 10) + (10 * (n / 10) + n % 10) := by ring
        _ = a * (t * 10) + n := by rw [Nat.div_add_mod]

/-- The decimal printer is correct: reading its digits back yields `n`. -/
theorem valAux_natToDigits (n : Nat) : valAux 0 (natToDigits n) = n := by
  unfold natToDigits
  by_cases h : n = 0
  · simp [h, valAux]
  · simp only [h, if_false]
    obtain ⟨t, _, heq⟩ :=
      natDigitsGo_val n (Nat.pos_of_ne_zero h) n [] 0 le_rfl
    rw [heq]
    simp [valAux]

/-- The checked parser inverts the printer whenever the value fits. -/
theorem checkedDigits_natToDigits (limit n : Nat) (h : n ≤ limit) :
    checkedDigits limit 0 (natToDigits n) = some n := by
  have := checkedDigits_complete (natToDigits n) limit 0 (natToDigits_digits n)
    (by rw [valAux_natToDigits]; exact h)
  rw [this, valAux_natToDigits]

/-- Tag-number parsing inverts the printer for any `u32` value. -/
theorem parse_tag_number_natToDigits (n : Nat) (h : n ≤ 4294967295) :
    parse_tag_number (natToDigits n) = some n := by
  unfold parse_tag_number
  rw [if_neg (by simpa [List.isEmpty_iff] using natToDigits_ne_nil n)]
  exact checkedDigits_natToDigits _ _ h

/-- Body-length parsing inverts the printer for any `usize` value. -/
theorem parse_body_length_natToDigits (n : Nat) (h : n ≤ 18446744073709551615) :
    parse_body_length (natToDigits n) = some n := by
  unfold parse_body_length
  rw [if_neg (by simpa [List.isEmpty_iff] using natToDigits_ne_nil n)]
  exact checkedDigits_natToDigits _ _ h

/-! Segment iteration. -/

/-- Index of the first hit after a miss-free prefix. -/
theorem findIdx_append_cons (p : Nat → Bool) :
    ∀ (c : List Nat) (d : Nat) (r : List Nat), (∀ x ∈ c, p x = false) → p d = true →
      List.findIdx p (c ++ d :: r) = c.length := by
  intro c
  induction c with
  | nil => intro d r _ hd; simp [List.findIdx_cons, hd]
  | cons b c ih =>
    intro d r hc hd
    have hb : p b = false := hc b (List.mem_cons_self b c)
    simp [List.findIdx_cons, hb, ih d r (fun x hx => hc x (List.mem_cons_of_mem b hx)) hd]

/-- Dropping past an appended singleton. -/
theorem drop_append_cons (c : List Nat) (d : Nat) (r : List Nat) :
    (c ++ d :: r).drop (c.length + 1) = r := by
  have h : c ++ d :: r = (c ++ [d]) ++ r := by simp
  have hl : (c ++ [d]).length = c.length + 1 := by simp
  rw [h, ← hl, List.drop_left]

/-- Exhausted iterator yields nothing. -/
theorem fieldSegsGo_nil (fuel : Nat) : fieldSegsGo fuel [] = [] := by
  cases fuel <;> simp [fieldSegsGo]

/-- Length bound for the iterator's advanced slice. -/
theorem segRest_length (rem : List Nat) (h : rem ≠ []) :
    (segRest rem).length < rem.length := by
  have hpos : 0 < rem.length := List.length_pos.mpr h
  simp only [segRest]
  split
  · rw [List.length_drop]; omega
  · simpa using hpos

/-- The iterator's result does not depend on the fuel once the fuel covers the
remaining length. -/
theorem fieldSegsGo_congr :
    ∀ (f1 : Nat) (rem : List Nat) (f2 : Nat), rem.length ≤ f1 → rem.length ≤ f2 →
      fieldSegsGo f1 rem = fieldSegsGo f2 rem := by
  intro f1
  induction f1 with
  | zero =>
    intro rem f2 h1 _
    have : rem = [] := List.eq_nil_of_length_eq_zero (by omega)
    subst this
    rw [fieldSegsGo_nil, fieldSegsGo_nil]
  | succ f1 ih =>
    intro rem f2 h1 h2
    cases rem with
    | nil => rw [fieldSegsGo_nil, fieldSegsGo_nil]
    | cons b tl =>
      obtain ⟨f2', rfl⟩ : ∃ k, f2 = k + 1 := ⟨f2 - 1, by simp at h2; omega⟩
      have hr := segRest_length (b :: tl) (by simp)
      simp only [List.length_cons] at h1 h2 hr
      have hrec := ih (segRest (b :: tl)) f2' (by omega) (by omega)
      simp only [fieldSegsGo, List.isEmpty_cons, Bool.false_eq_true, if_false]
      rw [hrec]

/-- One chunk step of the iterator: a nonempty SOH-free chunk before a SOH
separator is emitted, and iteration continues past the separator. -/
theorem fieldIter_chunk (c rest : List Nat) (hc : c ≠ []) (hsoh : ∀ x ∈ c, x ≠ 1) :
    fieldIter (c ++ 1 :: rest) = c :: fieldIter rest := by
  unfold fieldIter
  have hlen : (c ++ 1 :: rest).length = c.length + (rest.length + 1) := by simp
  obtain ⟨k, hk⟩ : ∃ k, (c ++ 1 :: rest).length = k + 1 :=
    ⟨c.length + rest.length, by omega⟩
  rw [hk]
  have hne : (c ++ 1 :: rest).isEmpty = false := by
    simp [List.isEmpty_iff]
  have hidx : (c ++ 1 :: rest).findIdx (fun b => b == SOH) = c.length := by
    refine findIdx_append_cons _ c 1 rest ?_ (by simp [SOH])
    intro x hx
    simpa [SOH] using hsoh x hx
  have hseg : segRest (c ++ 1 :: rest) = rest := by
    unfold segRest
    rw [hidx, if_pos (by omega), drop_append_cons]
  simp only [fieldSegsGo, hne, Bool.false_eq_true, if_false, hidx]
  rw [List.take_left, hseg]
  rw [if_neg (by simpa [List.isEmpty_iff] using hc)]
  have hcg : fieldSegsGo k rest = fieldSegsGo rest.length rest :=
    fieldSegsGo_congr k rest rest.length (by omega) le_rfl
  rw [hcg]

/-- The iterator recovers a list of nonempty SOH-free chunks from their
SOH-terminated concatenation. -/
theorem fieldIter_chunks :
    ∀ cs : List (List Nat), (∀ c ∈ cs, c ≠ [] ∧ ∀ x ∈ c, x ≠ 1) →
      fieldIter ((cs.map (fun c => c ++ [1])).flatten) = cs := by
  intro cs
  induction cs with
  | nil => intro _; rfl
  | cons c cs ih =>
    intro h
    have hc := h c (List.mem_cons_self c cs)
    simp only [List.map_cons, List.flatten_cons]
    have hshape : (c ++ [1]) ++ (cs.map (fun c => c ++ [1])).flatten
        = c ++ 1 :: (cs.map (fun c => c ++ [1])).flatten := by simp
    rw [hshape, fieldIter_chunk c _ hc.1 hc.2,
      ih (fun x hx => h x (List.mem_cons_of_mem c hx))]

/-! Field splitting, UTF-8, checksum rendering, map lemmas. -/

/-- Splitting a serialized segment `digits(t) = v` recovers tag and value
(first `=` wins, so `v` may itself contain `=` bytes). -/
theorem split_field_segment (t : Nat) (v : List Nat) (ht : t ≤ 4294967295) :
    split_field (natToDigits t ++ 61 :: v) = .ok (t, v) := by
  have hidx : (natToDigits t ++ 61 :: v).findIdx (fun b => b == 61) = (natToDigits t).length := by
    refine findIdx_append_cons _ _ 61 v ?_ (by simp)
    intro x hx
    have := natToDigits_digits t x hx
    simp only [beq_eq_false_iff_ne, ne_eq]
    omega
  have hlen : (natToDigits t ++ 61 :: v).length = (natToDigits t).length + (v.length + 1) := by
    simp
  simp only [split_field, hidx]
  rw [if_pos (by omega)]
  rw [List.take_left, drop_append_cons, parse_tag_number_natToDigits t ht]

/-- ASCII byte lists are valid UTF-8. -/
theorem validUtf8_ascii : ∀ l : List Nat, (∀ x ∈ l, x < 128) → validUtf8 l = true := by
  intro l
  induction l with
  | nil => intro _; rfl
  | cons b bs ih =>
    intro h
    have hb : b < 128 := h b (List.mem_cons_self b bs)
    rw [validUtf8.eq_def]
    dsimp only
    rw [if_pos (by omega)]
    exact ih fun x hx => h x (List.mem_cons_of_mem b hx)

/-- Lossy UTF-8 interpretation is the identity on ASCII byte lists. -/
theorem utf8OrEmpty_ascii (l : List Nat) (h : ∀ x ∈ l, x < 128) : utf8OrEmpty l = l := by
  unfold utf8OrEmpty
  rw [if_pos (validUtf8_ascii l h)]

/-- The three rendered checksum bytes are ASCII digits. -/
theorem checksum3_digits (c : Nat) (hc : c < 256) : ∀ x ∈ checksum3 c, 48 ≤ x ∧ x ≤ 57 := by
  intro x hx
  simp only [checksum3, List.mem_cons, List.not_mem_nil, or_false] at hx
  rcases hx with h | h | h <;> subst h <;> constructor <;> omega

/-- Value of the three rendered checksum digits. -/
theorem valAux_checksum3 (c : Nat) : valAux 0 (checksum3 c) = c / 100 * 100 + c / 10 % 10 * 10 + c % 10 := by
  simp only [checksum3, valAux, List.foldl_cons, List.foldl_nil]
  omega

/-- Parsing the rendered checksum recovers the checksum for byte values. -/
theorem parse_checksum_value_checksum3 (c : Nat) (hc : c < 256) :
    parse_checksum_value (checksum3 c) = some c := by
  have hval : valAux 0 (checksum3 c) = c := by rw [valAux_checksum3]; omega
  unfold parse_checksum_value
  rw [if_neg (by simp [checksum3])]
  rw [checkedDigits_complete (checksum3 c) 65535 0 (checksum3_digits c hc) (by omega)]
  rw [hval]
  simp [Nat.mod_eq_of_lt hc]

/-- Lookup after inserting a different key. -/
theorem lookupField_insert_ne (k t : Nat) (v : List Nat) (hne : k ≠ t) :
    ∀ m : List (Nat × List Nat), lookupField k (insertField t v m) = lookupField k m := by
  intro m
  induction m with
  | nil => simp [insertField, lookupField, hne]
  | cons p m ih =>
    obtain ⟨k2, v2⟩ := p
    by_cases h : t = k2
    · subst h
      simp only [insertField, if_pos rfl]
      simp [lookupField, hne]
    · simp only [insertField, if_neg h, lookupField]
      by_cases h2 : k = k2
      · simp [h2]
      · simp [h2, ih]

/-! Field-collection loop lemmas. -/

/-- Serialized staged fields are folded into the map one after the other:
tags other than 10 and 35 land in `fields` via `insertField`, in call order. -/
theorem parseLoop_staged (chk : Nat) :
    ∀ (fs : List (Nat × List Nat)) (st : LoopState) (tailSegs : List (List Nat)),
      (∀ p ∈ fs, p.1 ≤ 4294967295 ∧ p.1 ≠ 10 ∧ p.1 ≠ 35 ∧ ∀ x ∈ p.2, x < 128) →
      parseLoop chk st ((fs.map (fun p => natToDigits p.1 ++ 61 :: p.2)) ++ tailSegs) =
        parseLoop chk { st with fields := fs.foldl (fun m p => insertField p.1 p.2 m) st.fields }
          tailSegs := by
  intro fs
  induction fs with
  | nil => intro st tailSegs _; rfl
  | cons p fs ih =>
    intro st tailSegs h
    obtain ⟨t, v⟩ := p
    have hp := h (t, v) (List.mem_cons_self _ _)
    simp only [List.map_cons, List.cons_append, List.foldl_cons]
    rw [parseLoop, split_field_segment t v hp.1]
    dsimp only
    rw [if_neg hp.2.1, if_neg hp.2.2.1, utf8OrEmpty_ascii v hp.2.2.2]
    exact ih _ _ (fun q hq => h q (List.mem_cons_of_mem _ hq))

/-- Whatever invariant on `fields` is preserved by inserting a non-10, non-35
tag is preserved by a successful run of the collection loop. -/
theorem parseLoop_ok_fields_inv (chk : Nat) (P : List (Nat × List Nat) → Prop)
    (hP : ∀ t v m, t ≠ 10 → t ≠ 35 → P m → P (insertField t v m)) :
    ∀ (segs : List (List Nat)) (st res : LoopState),
      parseLoop chk st segs = .ok res → P st.fields → P res.fields := by
  intro segs
  induction segs with
  | nil =>
    intro st res h hst
    simp only [parseLoop] at h
    cases h
    exact hst
  | cons f fs ih =>
    intro st res h hst
    rw [parseLoop] at h
    cases hsf : split_field f with
    | error e => rw [hsf] at h; exact absurd h (by simp)
    | ok tv =>
      obtain ⟨t, v⟩ := tv
      rw [hsf] at h
      dsimp only at h
      by_cases h10 : t = 10
      · rw [if_pos h10] at h
        cases hpc : parse_checksum_value v with
        | none => rw [hpc] at h; exact absurd h (by simp)
        | some ec =>
          rw [hpc] at h
          dsimp only at h
          by_cases hne : chk ≠ ec
          · rw [if_pos hne] at h; exact absurd h (by simp)
          · rw [if_neg hne] at h
            exact ih _ res h hst
      · rw [if_neg h10] at h
        by_cases h35 : t = 35
        · rw [if_pos h35] at h
          exact ih _ res h hst
        · rw [if_neg h35] at h
          exact ih _ res h (hP t (utf8OrEmpty v) st.fields h10 h35 hst)

/-- A `split_field` failure is always a `MalformedField` or `InvalidTag`. -/
theorem split_field_error (f : List Nat) (err : ParseError) (h : split_field f = .error err) :
    (∃ r, err = .MalformedField r) ∨ (∃ r, err = .InvalidTag r) := by
  simp only [split_field] at h
  split at h
  · split at h
    · exact absurd h (by simp)
    · right; exact ⟨_, by cases h; rfl⟩
  · left; exact ⟨_, by cases h; rfl⟩

/-- Provenance of an `InvalidChecksum` failure of the collection loop: the
`actual` component is always the computed checksum handed to the loop, and
some tag-10 segment declared either a mismatching value (carried as
`expected`) or an unparseable one (`expected` = 0). -/
theorem parseLoop_invalid (chk : Nat) :
    ∀ (segs : List (List Nat)) (st : LoopState) (e a : Nat),
      parseLoop chk st segs = .error (.InvalidChecksum e a) →
      a = chk ∧ ∃ seg ∈ segs, ∃ v, split_field seg = .ok (10, v) ∧
        ((parse_checksum_value v = some e ∧ e ≠ a) ∨ (parse_checksum_value v = none ∧ e = 0)) := by
  intro segs
  induction segs with
  | nil => intro st e a h; simp only [parseLoop] at h; exact absurd h (by simp)
  | cons f fs ih =>
    intro st e a h
    rw [parseLoop] at h
    cases hsf : split_field f with
    | error e2 =>
      rw [hsf] at h
      have : e2 = .InvalidChecksum e a := by
        cases h; rfl
      rcases split_field_error f e2 hsf with ⟨r, hr⟩ | ⟨r, hr⟩ <;> rw [hr] at this <;> cases this
    | ok tv =>
      obtain ⟨t, v⟩ := tv
      rw [hsf] at h
      dsimp only at h
      by_cases h10 : t = 10
      · subst h10
        rw [if_pos rfl] at h
        cases hpc : parse_checksum_value v with
        | none =>
          rw [hpc] at h
          have : (ParseError.InvalidChecksum 0 chk) = .InvalidChecksum e a := by cases h; rfl
          cases this
          exact ⟨rfl, f, List.mem_cons_self _ _, v, hsf, Or.inr ⟨hpc, rfl⟩⟩
        | some ec =>
          rw [hpc] at h
          dsimp only at h
          by_cases hne : chk ≠ ec
          · rw [if_pos hne] at h
            have : (ParseError.InvalidChecksum ec chk) = .InvalidChecksum e a := by cases h; rfl
            cases this
            exact ⟨rfl, f, List.mem_cons_self _ _, v, hsf, Or.inl ⟨hpc, fun hc => hne hc.symm⟩⟩
          · rw [if_neg hne] at h
            obtain ⟨ha, seg, hseg, rest⟩ := ih _ e a h
            exact ⟨ha, seg, List.mem_cons_of_mem f hseg, rest⟩
      · rw [if_neg h10] at h
        by_cases h35 : t = 35
        · rw [if_pos h35] at h
          obtain ⟨ha, seg, hseg, rest⟩ := ih _ e a h
          exact ⟨ha, seg, List.mem_cons_of_mem f hseg, rest⟩
        · rw [if_neg h35] at h
          obtain ⟨ha, seg, hseg, rest⟩ := ih _ e a h
          exact ⟨ha, seg, List.mem_cons_of_mem f hseg, rest⟩

/-! Panic-explicit mirror agrees with the plain embedding. -/

/-- The guarded digit loop never panics: the `b - 48` subtraction is reached
only under the digit test. -/
theorem checkedDigitsC_eq (limit : Nat) :
    ∀ (ds : List Nat) (n : Nat), checkedDigitsC limit n ds = some (checkedDigits limit n ds) := by
  intro ds
  induction ds with
  | nil => intro n; rfl
  | cons b bs ih =>
    intro n
    by_cases hd : 48 ≤ b ∧ b ≤ 57
    · have hsub : subG b 48 = some (b - 48) := by
        unfold subG; rw [if_pos (by omega)]
      rw [checkedDigitsC, checkedDigits, if_pos hd, if_pos hd, hsub]
      dsimp only
      by_cases hl : n * 10 + (b - 48) ≤ limit
      · rw [if_pos hl, if_pos hl, ih]
      · rw [if_neg hl, if_neg hl]
    · rw [checkedDigitsC, checkedDigits, if_neg hd, if_neg hd]

/-- Guarded tag-number parsing never panics. -/
theorem parse_tag_numberC_eq (bytes : List Nat) :
    parse_tag_numberC bytes = some (parse_tag_number bytes) := by
  unfold parse_tag_numberC parse_tag_number
  by_cases h : bytes.isEmpty
  · rw [if_pos h, if_pos h]
  · rw [if_neg h, if_neg h, checkedDigitsC_eq]

/-- Guarded body-length parsing never panics. -/
theorem parse_body_lengthC_eq (bytes : List Nat) :
    parse_body_lengthC bytes = some (parse_body_length bytes) := by
  unfold parse_body_lengthC parse_body_length
  by_cases h : bytes.isEmpty
  · rw [if_pos h, if_pos h]
  · rw [if_neg h, if_neg h, checkedDigitsC_eq]

/-- Guarded checksum-value parsing never panics. -/
theorem parse_checksum_valueC_eq (bytes : List Nat) :
    parse_checksum_valueC bytes = some (parse_checksum_value bytes) := by
  unfold parse_checksum_valueC parse_checksum_value
  by_cases h : bytes.isEmpty
  · rw [if_pos h, if_pos h]
  · rw [if_neg h, if_neg h, checkedDigitsC_eq]
    rfl

/-- Guarded field splitting never panics: both slices are in bounds because
the `=` position is within the field. -/
theorem split_fieldC_eq (f : List Nat) : split_fieldC f = some (split_field f) := by
  simp only [split_fieldC, split_field]
  by_cases h : f.findIdx (fun b => b == 61) < f.length
  · rw [if_pos h, if_pos h]
    have ht : takeG f (f.findIdx fun b => b == 61)
        = some (f.take (f.findIdx fun b => b == 61)) := by
      unfold takeG; rw [if_pos (Nat.le_of_lt h)]
    have hd : dropG f ((f.findIdx fun b => b == 61) + 1)
        = some (f.drop ((f.findIdx fun b => b == 61) + 1)) := by
      unfold dropG; rw [if_pos (by omega)]
    rw [ht]
    try dsimp only
    rw [hd]
    try dsimp only
    rw [parse_tag_numberC_eq]
    try dsimp only
    cases parse_tag_number (f.take (f.findIdx fun b => b == 61)) <;> rfl
  · rw [if_neg h, if_neg h]

/-- Unfolding of the iterator on a nonempty slice. -/
theorem fieldIter_unfold (rem : List Nat) (h : rem ≠ []) :
    fieldIter rem =
      if (rem.take (rem.findIdx (fun b => b == SOH))).isEmpty then fieldIter (segRest rem)
      else rem.take (rem.findIdx (fun b => b == SOH)) :: fieldIter (segRest rem) := by
  obtain ⟨k, hk⟩ : ∃ k, rem.length = k + 1 :=
    ⟨rem.length - 1, by have := List.length_pos.mpr h; omega⟩
  have hsr : (segRest rem).length ≤ k := by
    have := segRest_length rem h
    omega
  unfold fieldIter
  rw [hk]
  rw [show fieldSegsGo (k + 1) rem = if rem.isEmpty then [] else
      (if (rem.take (rem.findIdx (fun b => b == SOH))).isEmpty then fieldSegsGo k (segRest rem)
       else rem.take (rem.findIdx (fun b => b == SOH)) :: fieldSegsGo k (segRest rem)) from rfl]
  rw [if_neg (by simpa [List.isEmpty_iff] using h)]
  rw [fieldSegsGo_congr k (segRest rem) (segRest rem).length hsr le_rfl]

/-- The guarded iterator never panics and agrees with the plain one, given
fuel exceeding the slice length. -/
theorem fieldSegsGoC_eq :
    ∀ (fuel : Nat) (rem : List Nat), rem.length < fuel →
      fieldSegsGoC fuel rem = some (fieldIter rem) := by
  intro fuel
  induction fuel with
  | zero => intro rem h; omega
  | succ f ih =>
    intro rem h
    by_cases hemp : rem.isEmpty
    · have : rem = [] := by simpa [List.isEmpty_iff] using hemp
      subst this
      rw [show fieldSegsGoC (f + 1) [] = some [] by rw [fieldSegsGoC]; rfl]
      rfl
    · have hrne : rem ≠ [] := by simpa [List.isEmpty_iff] using hemp
      have hele : rem.findIdx (fun b => b == SOH) ≤ rem.length := List.findIdx_le_length _
      have ht : takeG rem (rem.findIdx (fun b => b == SOH))
          = some (rem.take (rem.findIdx (fun b => b == SOH))) := by
        unfold takeG; rw [if_pos hele]
      have hrest : (if rem.findIdx (fun b => b == SOH) < rem.length then
            dropG rem (rem.findIdx (fun b => b == SOH) + 1) else some [])
          = some (segRest rem) := by
        unfold segRest
        by_cases hlt : rem.findIdx (fun b => b == SOH) < rem.length
        · rw [if_pos hlt, if_pos hlt]
          unfold dropG; rw [if_pos (by omega)]
        · rw [if_neg hlt, if_neg hlt]
      have hlen : (segRest rem).length < f := by
        have := segRest_length rem hrne
        omega
      simp only [fieldSegsGoC]
      rw [if_neg (by simp [hemp])]
      rw [ht]
      try dsimp only
      rw [hrest]
      try dsimp only
      rw [ih (segRest rem) hlen]
      try dsimp only
      rw [fieldIter_unfold rem hrne]

/-- The guarded collection loop never panics and agrees with the plain one. -/
theorem parseLoopC_eq (chk : Nat) :
    ∀ (segs : List (List Nat)) (st : LoopState),
      parseLoopC chk st segs = some (parseLoop chk st segs) := by
  intro segs
  induction segs with
  | nil => intro st; rfl
  | cons f fs ih =>
    intro st
    rw [parseLoopC, parseLoop, split_fieldC_eq f]
    try dsimp only
    cases split_field f with
    | error e => rfl
    | ok tv =>
      obtain ⟨t, v⟩ := tv
      try dsimp only
      by_cases h10 : t = 10
      · rw [if_pos h10, if_pos h10, parse_checksum_valueC_eq]
        try dsimp only
        cases parse_checksum_value v with
        | none => rfl
        | some ec =>
          try dsimp only
          by_cases hne : chk ≠ ec
          · rw [if_pos hne, if_pos hne]
          · rw [if_neg hne, if_neg hne, ih]
      · rw [if_neg h10, if_neg h10]
        by_cases h35 : t = 35
        · rw [if_pos h35, if_pos h35, ih]
        · rw [if_neg h35, if_neg h35, ih]
-- C2 theorem development appended to main file copy
/-- C2 — Totality of decode: for every byte sequence, including adversarial,
truncated, and non-UTF8 input, the panic-explicit mirror of the decode path
(in which every slice index and every subtraction of the Rust source is a
guarded operation whose failure would be a panic, and every numeric parse is
the checked loop) never panics: it terminates with exactly the result of
`parse`, which by its type is either a `FixMessage` or one of the declared
`ParseError` variants. -/
theorem C2_decode_total (input : List Nat) : parseChecked input = some (parse input) := by
  by_cases hemp : input.isEmpty
  · simp only [parseChecked, parse, if_pos hemp]
  · simp only [parseChecked, parse, if_neg hemp]
    rw [fieldSegsGoC_eq (input.length + 1) input (by omega)]
    try dsimp only
    cases hfi : fieldIter input with
    | nil => rfl
    | cons field0 rest0 =>
      try dsimp only
      rw [split_fieldC_eq field0]
      try dsimp only
      cases hsf0 : split_field field0 with
      | error e => rfl
      | ok tv0 =>
        obtain ⟨tag0, beginBytes⟩ := tv0
        try dsimp only
        try dsimp only
        by_cases h8 : tag0 ≠ 8
        · rw [if_pos h8, if_pos h8]
        · rw [if_neg h8, if_neg h8]
          cases rest0 with
          | nil => rfl
          | cons field1 rest =>
            try dsimp only
            rw [split_fieldC_eq field1]
            try dsimp only
            cases hsf1 : split_field field1 with
            | error e => rfl
            | ok tv1 =>
              obtain ⟨tag1, blb⟩ := tv1
              try dsimp only
              try dsimp only
              by_cases h9 : tag1 ≠ 9
              · rw [if_pos h9, if_pos h9]
              · rw [if_neg h9, if_neg h9]
                rw [parse_body_lengthC_eq]
                try dsimp only
                cases hbl : parse_body_length blb with
                | none => rfl
                | some dl =>
                  try dsimp only
                  by_cases hlt : input.length - 7 < field0.length + 1 + (field1.length + 1)
                  · rw [if_pos hlt, if_pos (Or.inl hlt)]
                  · rw [if_neg hlt]
                    rw [show subG (input.length - 7) (field0.length + 1 + (field1.length + 1))
                        = some (input.length - 7 - (field0.length + 1 + (field1.length + 1))) by
                      unfold subG; rw [if_pos (by omega)]]
                    try dsimp only
                    by_cases hne : input.length - 7 - (field0.length + 1 + (field1.length + 1)) ≠ dl
                    · rw [if_pos hne, if_pos (Or.inr hne)]
                    · rw [if_neg hne, if_neg (by
                        push_neg
                        exact ⟨by omega, by omega⟩)]
                      by_cases h7 : input.length < 7
                      · rw [if_pos h7]
                        rw [show subG input.length 7 = none by
                          unfold subG; rw [if_neg (by omega)]]
                      · rw [if_neg h7]
                        rw [show subG input.length 7 = some (input.length - 7) by
                          unfold subG; rw [if_pos (by omega)]]
                        try dsimp only
                        rw [show takeG input (input.length - 7)
                            = some (input.take (input.length - 7)) by
                          unfold takeG; rw [if_pos (by omega)]]
                        try dsimp only
                        rw [parseLoopC_eq]
                        try dsimp only
                        cases parseLoop (compute_checksum (input.take (input.length - 7)))
                            ⟨[], [], false⟩ rest with
                        | error e => rfl
                        | ok st =>
                          try dsimp only
                          by_cases hsaw : !st.sawChecksum
                          · rw [if_pos hsaw, if_pos hsaw]
                          · rw [if_neg hsaw, if_neg hsaw]

/-- A serialized segment is nonempty and SOH-free whenever its value is. -/
theorem seg_sohfree (t : Nat) (w : List Nat) (hw : ∀ x ∈ w, x ≠ 1) :
    (natToDigits t ++ 61 :: w) ≠ [] ∧ ∀ x ∈ natToDigits t ++ 61 :: w, x ≠ 1 := by
  refine ⟨by simp, ?_⟩
  intro x hx
  rcases List.mem_append.mp hx with h | h
  · have := natToDigits_digits t x h; omega
  · rcases List.mem_cons.mp h with h | h
    · omega
    · exact hw x h

/-- Serialization of one field as segment-plus-separator. -/
theorem appendField_eq (t : Nat) (w : List Nat) :
    appendField t w = (natToDigits t ++ 61 :: w) ++ [1] := by
  simp [appendField, SOH]

theorem checksum3_length (c : Nat) : (checksum3 c).length = 3 := by
  simp [checksum3]

/-- Round-trip, amended: building with an ASCII SOH-free version and message
type, staged tags that are `u32` values other than 10 (checksum) and 35
(message type), ASCII staged values free of SOH and `=`, and a body that fits
in `usize`, then decoding, succeeds and returns exactly the builder's version,
message type, and the map of the staged fields (later duplicates winning). -/
theorem C1_roundtrip (b : FixBuilder)
    (hv : ∀ x ∈ b.begin_string, x < 128 ∧ x ≠ 1)
    (hm : ∀ x ∈ b.msg_type, x < 128 ∧ x ≠ 1)
    (hf : ∀ p ∈ b.fields, p.1 ≤ 4294967295 ∧ p.1 ≠ 10 ∧ p.1 ≠ 35 ∧
          ∀ x ∈ p.2, x < 128 ∧ x ≠ 1 ∧ x ≠ 61)
    (hlen : b.body.length ≤ 18446744073709551615) :
    parse b.build = .ok ⟨b.begin_string, b.msg_type, stagedMap b.fields⟩ := by
  obtain ⟨v, m, fs⟩ := b
  simp only [FixBuilder.body] at hlen
  -- abbreviations
  set L := (appendField 35 m ++ (fs.map (fun p => appendField p.1 p.2)).flatten).length with hLdef
  set bdy := appendField 35 m ++ (fs.map (fun p => appendField p.1 p.2)).flatten with hbdy
  set hdr := appendField 8 v ++ appendField 9 (natToDigits L) with hhdr
  set out := hdr ++ bdy with hout
  set chk := builder_checksum out with hchk
  set c8 := natToDigits 8 ++ 61 :: v with hc8
  set c9 := natToDigits 9 ++ 61 :: natToDigits L with hc9
  set c35 := natToDigits 35 ++ 61 :: m with hc35
  set c10 := natToDigits 10 ++ 61 :: checksum3 chk with hc10
  set stag := fs.map (fun p => natToDigits p.1 ++ 61 :: p.2) with hstag
  have hchklt : chk < 256 := by
    rw [hchk, builder_checksum_eq]; exact compute_checksum_lt _
  have hbuild : FixBuilder.build ⟨v, m, fs⟩ =
      ((([c8, c9, c35] ++ stag ++ [c10]).map (fun c => c ++ [1])).flatten) := by
    show (let h2 := appendField 8 v ++ appendField 9 (natToDigits
        (FixBuilder.body ⟨v, m, fs⟩).length);
      let o2 := h2 ++ FixBuilder.body ⟨v, m, fs⟩;
      o2 ++ [49, 48, 61] ++ checksum3 (builder_checksum o2) ++ [SOH]) = _
    simp only [FixBuilder.body]
    rw [← hLdef, ← hbdy, ← hhdr, ← hout, ← hchk]
    simp only [List.append_assoc, List.map_append, List.map_cons, List.map_nil,
      List.flatten_append, List.flatten_cons, List.flatten_nil]
    rw [hout, hhdr, hbdy, hstag]
    simp only [appendField_eq, hc8, hc9, hc35, hc10, List.map_map]
    have hnat10 : natToDigits 10 = [49, 48] := rfl
    simp [Function.comp, List.append_assoc, hnat10, SOH]
    congr 1
    exact List.map_congr_left (fun p _ => by simp)
  have hbuild2 : FixBuilder.build ⟨v, m, fs⟩ = out ++ ([49, 48, 61] ++ checksum3 chk ++ [1]) := by
    show (let h2 := appendField 8 v ++ appendField 9 (natToDigits
        (FixBuilder.body ⟨v, m, fs⟩).length);
      let o2 := h2 ++ FixBuilder.body ⟨v, m, fs⟩;
      o2 ++ [49, 48, 61] ++ checksum3 (builder_checksum o2) ++ [SOH]) = _
    simp only [FixBuilder.body]
    rw [← hLdef, ← hbdy, ← hhdr, ← hout, ← hchk]
    simp [List.append_assoc, SOH]
  have hchunks : ∀ c ∈ [c8, c9, c35] ++ stag ++ [c10], c ≠ [] ∧ ∀ x ∈ c, x ≠ 1 := by
    intro c hc
    simp only [List.mem_append, List.mem_cons, List.not_mem_nil, or_false] at hc
    rcases hc with ((h | h | h) | h) | h
    · subst h; exact seg_sohfree 8 v (fun x hx => (hv x hx).2)
    · subst h
      exact seg_sohfree 9 (natToDigits L)
        (fun x hx => by have := natToDigits_digits L x hx; omega)
    · subst h; exact seg_sohfree 35 m (fun x hx => (hm x hx).2)
    · rw [hstag] at h
      obtain ⟨p, hp, rfl⟩ := List.mem_map.mp h
      exact seg_sohfree p.1 p.2 (fun x hx => ((hf p hp).2.2.2 x hx).2.1)
    · subst h
      exact seg_sohfree 10 (checksum3 chk)
        (fun x hx => by have := checksum3_digits chk hchklt x hx; omega)
  have hiter : fieldIter (FixBuilder.build ⟨v, m, fs⟩) = c8 :: c9 :: c35 :: (stag ++ [c10]) := by
    rw [hbuild, fieldIter_chunks _ hchunks]
    simp
  have hInne : (FixBuilder.build ⟨v, m, fs⟩).isEmpty = false := by
    rw [hbuild2]
    simp [List.isEmpty_iff]
  have houtlen : out.length = c8.length + 1 + (c9.length + 1) + L := by
    rw [hout, hhdr, hc8, hc9, hLdef]
    simp [appendField_eq]
    omega
  have hlenIn : (FixBuilder.build ⟨v, m, fs⟩).length = out.length + 7 := by
    rw [hbuild2]
    simp [checksum3_length]
  have htake : (FixBuilder.build ⟨v, m, fs⟩).take
      ((FixBuilder.build ⟨v, m, fs⟩).length - 7) = out := by
    rw [hlenIn, hbuild2]
    have h7 : out.length + 7 - 7 = out.length := by omega
    rw [h7, List.take_left]
  simp only [parse]
  rw [if_neg (by simp [hInne])]
  rw [hiter]
  try dsimp only
  rw [show split_field c8 = .ok (8, v) from by
    rw [hc8]; exact split_field_segment 8 v (by norm_num)]
  try dsimp only
  rw [if_neg (by simp)]
  try dsimp only
  rw [show split_field c9 = .ok (9, natToDigits L) from by
    rw [hc9]; exact split_field_segment 9 _ (by norm_num)]
  try dsimp only
  rw [if_neg (by simp)]
  rw [parse_body_length_natToDigits L hlen]
  try dsimp only
  rw [if_neg (by push_neg; constructor <;> omega)]
  rw [if_neg (by omega)]
  rw [htake]
  rw [show compute_checksum out = chk from by rw [hchk, builder_checksum_eq]]
  try dsimp only
  rw [parseLoop]
  rw [show split_field c35 = .ok (35, m) from by
    rw [hc35]; exact split_field_segment 35 m (by norm_num)]
  try dsimp only
  rw [if_neg (by simp), if_pos rfl]
  rw [utf8OrEmpty_ascii m (fun x hx => (hm x hx).1)]
  rw [hstag]
  rw [parseLoop_staged chk fs ⟨m, [], false⟩ [c10]
    (fun p hp => ⟨(hf p hp).1, (hf p hp).2.1, (hf p hp).2.2.1,
      fun x hx => ((hf p hp).2.2.2 x hx).1⟩)]
  try dsimp only
  rw [parseLoop]
  rw [show split_field c10 = .ok (10, checksum3 chk) from by
    rw [hc10]; exact split_field_segment 10 _ (by norm_num)]
  try dsimp only
  rw [if_pos rfl]
  rw [parse_checksum_value_checksum3 chk hchklt]
  try dsimp only
  rw [if_neg (by simp)]
  rw [parseLoop]
  try dsimp only
  rw [if_neg (by simp)]
  rw [utf8OrEmpty_ascii v (fun x hx => (hv x hx).1)]
  rfl

/-- C1 witness — the spec's concrete scenario: version "V1", type "0", staged
fields (49,"A"), (56,"B"), (34,"1"); all hypotheses hold and decode returns
the staged data exactly. -/
theorem C1_roundtrip_witness :
    (∀ x ∈ ([86, 49] : List Nat), x < 128 ∧ x ≠ 1) ∧
    parse (FixBuilder.build ⟨[86, 49], [48], [(49, [65]), (56, [66]), (34, [49])]⟩) =
      .ok ⟨[86, 49], [48], stagedMap [(49, [65]), (56, [66]), (34, [49])]⟩ :=
  ⟨by decide,
   C1_roundtrip ⟨[86, 49], [48], [(49, [65]), (56, [66]), (34, [49])]⟩
     (by decide) (by decide) (by decide) (by decide)⟩

/-- C1 counterexample — the claim as frozen constrains only the staged
values, but it fails for builders the constraint admits: (a) staging tag 10
with the ASCII value "A" makes decode fail; (b) staging tag 35 with value "A"
makes the decoded message type "A" instead of the builder's "0"; (c) a
version string containing the separator byte ("A\x01B") makes decode fail;
all staged values here are ASCII and contain neither 0x01 nor 61. -/
theorem C1_counterexample :
    (parse (FixBuilder.build ⟨[70, 73, 88], [48], [(10, [65])]⟩)).toOption = none ∧
    (parse (FixBuilder.build ⟨[86], [48], [(35, [65])]⟩)).toOption.map FixMessage.msg_type
      = some [65] ∧
    (parse (FixBuilder.build ⟨[65, 1, 66], [48], []⟩)).toOption = none := by
  refine ⟨?_, ?_, ?_⟩ <;> rfl

/-- C3 amended, decode part: a message returned by `parse` never carries the
checksum tag 10 or the message-type tag 35 in its `fields` map — those
segments are consumed by checksum validation and by the `msg_type` capture. -/
theorem C3_structural_exclusion (input : List Nat) (msg : FixMessage)
    (h : parse input = .ok msg) :
    lookupField 10 msg.fields = none ∧ lookupField 35 msg.fields = none := by
  by_cases hemp : input.isEmpty
  · rw [parse, if_pos hemp] at h; exact absurd h (by simp)
  · rw [parse, if_neg hemp] at h
    cases hfi : fieldIter input with
    | nil => rw [hfi] at h; exact absurd h (by simp)
    | cons f0 r0 =>
      rw [hfi] at h
      try dsimp only at h
      cases hs0 : split_field f0 with
      | error e => rw [hs0] at h; exact absurd h (by simp)
      | ok tv0 =>
        obtain ⟨t0, bb⟩ := tv0
        rw [hs0] at h
        try dsimp only at h
        by_cases h8 : t0 ≠ 8
        · rw [if_pos h8] at h; exact absurd h (by simp)
        · rw [if_neg h8] at h
          cases r0 with
          | nil => exact absurd h (by simp)
          | cons f1 r =>
            try dsimp only at h
            cases hs1 : split_field f1 with
            | error e => rw [hs1] at h; exact absurd h (by simp)
            | ok tv1 =>
              obtain ⟨t1, blb⟩ := tv1
              rw [hs1] at h
              try dsimp only at h
              by_cases h9 : t1 ≠ 9
              · rw [if_pos h9] at h; exact absurd h (by simp)
              · rw [if_neg h9] at h
                cases hbl : parse_body_length blb with
                | none => rw [hbl] at h; exact absurd h (by simp)
                | some dl =>
                  rw [hbl] at h
                  try dsimp only at h
                  by_cases hcond : input.length - 7 < f0.length + 1 + (f1.length + 1) ∨
                      input.length - 7 - (f0.length + 1 + (f1.length + 1)) ≠ dl
                  · rw [if_pos hcond] at h; exact absurd h (by simp)
                  · rw [if_neg hcond] at h
                    by_cases h7 : input.length < 7
                    · rw [if_pos h7] at h; exact absurd h (by simp)
                    · rw [if_neg h7] at h
                      cases hpl : parseLoop (compute_checksum (input.take (input.length - 7)))
                          ⟨[], [], false⟩ r with
                      | error e => rw [hpl] at h; exact absurd h (by simp)
                      | ok st =>
                        rw [hpl] at h
                        try dsimp only at h
                        by_cases hsw : (!st.sawChecksum) = true
                        · rw [if_pos hsw] at h; exact absurd h (by simp)
                        · rw [if_neg hsw] at h
                          have hmsg : msg = ⟨utf8OrEmpty bb, st.msgType, st.fields⟩ := by
                            cases h; rfl
                          subst hmsg
                          refine parseLoop_ok_fields_inv _
                            (fun fl => lookupField 10 fl = none ∧ lookupField 35 fl = none)
                            ?_ r ⟨[], [], false⟩ st hpl ⟨rfl, rfl⟩
                          intro t v mm ht10 ht35 hmm
                          constructor
                          · rw [lookupField_insert_ne 10 t v (fun hc => ht10 hc.symm)]
                            exact hmm.1
                          · rw [lookupField_insert_ne 35 t v (fun hc => ht35 hc.symm)]
                            exact hmm.2

/-- C3 counterexample — the `set` mutator performs no structural-tag
exclusion: setting tag 8 on a fresh message stores it in `fields`. -/
theorem C3_counterexample :
    lookupField 8 ((FixMessage.new [86] [48]).set 8 [88]).fields = some [88] := by
  rfl

/-- C3 witness — decode of a concrete valid frame yields a message whose
fields contain neither tag 10 nor tag 35. -/
theorem C3_structural_exclusion_witness :
    parse [56, 61, 65, 1, 57, 61, 53, 1, 51, 53, 61, 66, 1, 49, 48, 61, 48, 55, 53, 1]
      = .ok ⟨[65], [66], []⟩ ∧
    (lookupField 10 (FixMessage.mk [65] [66] []).fields = none ∧
     lookupField 35 (FixMessage.mk [65] [66] []).fields = none) :=
  ⟨by rfl,
   C3_structural_exclusion
     [56, 61, 65, 1, 57, 61, 53, 1, 51, 53, 61, 66, 1, 49, 48, 61, 48, 55, 53, 1]
     ⟨[65], [66], []⟩ (by rfl)⟩

/-- C4 amended: whenever decode fails with `InvalidChecksum e a`, the `actual`
component `a` is the checksum computed over all bytes strictly before the
7-byte checksum trailer, and the `expected` component `e` is the declared
value: some segment of the input splits as tag 10 whose value either parses
(after the modulo-256 fold) to `e` with `e ≠ a`, or fails to parse with `e`
reported as 0.  (The frozen claim states the two components the other way
around.) -/
theorem C4_invalid_checksum_payload (input : List Nat) (e a : Nat)
    (h : parse input = .error (.InvalidChecksum e a)) :
    a = compute_checksum (input.take (input.length - 7)) ∧
    ∃ seg ∈ fieldIter input, ∃ v, split_field seg = .ok (10, v) ∧
      ((parse_checksum_value v = some e ∧ e ≠ a) ∨
       (parse_checksum_value v = none ∧ e = 0)) := by
  by_cases hemp : input.isEmpty
  · rw [parse, if_pos hemp] at h; exact absurd h (by simp)
  · rw [parse, if_neg hemp] at h
    cases hfi : fieldIter input with
    | nil => rw [hfi] at h; exact absurd h (by simp)
    | cons f0 r0 =>
      rw [hfi] at h
      try dsimp only at h
      cases hs0 : split_field f0 with
      | error e2 =>
        rw [hs0] at h
        have he2 : e2 = .InvalidChecksum e a := by cases h; rfl
        rcases split_field_error f0 e2 hs0 with ⟨r, hr⟩ | ⟨r, hr⟩ <;> rw [hr] at he2 <;> cases he2
      | ok tv0 =>
        obtain ⟨t0, bb⟩ := tv0
        rw [hs0] at h
        try dsimp only at h
        by_cases h8 : t0 ≠ 8
        · rw [if_pos h8] at h; exact absurd h (by simp)
        · rw [if_neg h8] at h
          cases r0 with
          | nil => exact absurd h (by simp)
          | cons f1 r =>
            try dsimp only at h
            cases hs1 : split_field f1 with
            | error e2 =>
              rw [hs1] at h
              have he2 : e2 = .InvalidChecksum e a := by cases h; rfl
              rcases split_field_error f1 e2 hs1 with ⟨r2, hr⟩ | ⟨r2, hr⟩ <;>
                rw [hr] at he2 <;> cases he2
            | ok tv1 =>
              obtain ⟨t1, blb⟩ := tv1
              rw [hs1] at h
              try dsimp only at h
              by_cases h9 : t1 ≠ 9
              · rw [if_pos h9] at h; exact absurd h (by simp)
              · rw [if_neg h9] at h
                cases hbl : parse_body_length blb with
                | none => rw [hbl] at h; exact absurd h (by simp)
                | some dl =>
                  rw [hbl] at h
                  try dsimp only at h
                  by_cases hcond : input.length - 7 < f0.length + 1 + (f1.length + 1) ∨
                      input.length - 7 - (f0.length + 1 + (f1.length + 1)) ≠ dl
                  · rw [if_pos hcond] at h; exact absurd h (by simp)
                  · rw [if_neg hcond] at h
                    by_cases h7 : input.length < 7
                    · rw [if_pos h7] at h; exact absurd h (by simp)
                    · rw [if_neg h7] at h
                      cases hpl : parseLoop (compute_checksum (input.take (input.length - 7)))
                          ⟨[], [], false⟩ r with
                      | error e2 =>
                        rw [hpl] at h
                        have he2 : e2 = .InvalidChecksum e a := by cases h; rfl
                        subst he2
                        obtain ⟨ha, seg, hseg, v, hsv, hv⟩ :=
                          parseLoop_invalid _ r ⟨[], [], false⟩ e a hpl
                        exact ⟨ha, seg,
                          List.mem_cons_of_mem _ (List.mem_cons_of_mem _ hseg), v, hsv, hv⟩
                      | ok st =>
                        rw [hpl] at h
                        try dsimp only at h
                        by_cases hsw : (!st.sawChecksum) = true
                        · rw [if_pos hsw] at h; exact absurd h (by simp)
                        · rw [if_neg hsw] at h; exact absurd h (by simp)

/-- C4 counterexample — a concrete frame whose declared checksum "999" folds
to 231 while the computed sum is 75: the error carries `expected` = 231 (the
declared value) and `actual` = 75 (the computed sum), the opposite
orientation of the claim. -/
theorem C4_counterexample :
    parse [56, 61, 65, 1, 57, 61, 53, 1, 51, 53, 61, 66, 1, 49, 48, 61, 57, 57, 57, 1]
      = .error (.InvalidChecksum 231 75) ∧
    compute_checksum ([56, 61, 65, 1, 57, 61, 53, 1, 51, 53, 61, 66, 1,
      49, 48, 61, 57, 57, 57, 1].take 13) = 75 ∧
    parse_checksum_value [57, 57, 57] = some 231 ∧ ¬(231 = 75) := by
  refine ⟨?_, ?_, ?_, by decide⟩ <;> rfl

/-- C4 witness — the amended theorem applied at the concrete mismatching
frame. -/
theorem C4_invalid_checksum_payload_witness :
    parse [56, 61, 65, 1, 57, 61, 53, 1, 51, 53, 61, 66, 1, 49, 48, 61, 57, 57, 57, 1]
      = .error (.InvalidChecksum 231 75) ∧
    (75 = compute_checksum
        ([56, 61, 65, 1, 57, 61, 53, 1, 51, 53, 61, 66, 1, 49, 48, 61, 57, 57, 57, 1].take
          ([56, 61, 65, 1, 57, 61, 53, 1, 51, 53, 61, 66, 1, 49, 48, 61, 57, 57, 57, 1].length - 7)) ∧
     ∃ seg ∈ fieldIter [56, 61, 65, 1, 57, 61, 53, 1, 51, 53, 61, 66, 1, 49, 48, 61, 57, 57, 57, 1],
       ∃ v, split_field seg = .ok (10, v) ∧
         ((parse_checksum_value v = some 231 ∧ 231 ≠ 75) ∨
          (parse_checksum_value v = none ∧ 231 = 0))) :=
  ⟨by rfl,
   C4_invalid_checksum_payload
     [56, 61, 65, 1, 57, 61, 53, 1, 51, 53, 61, 66, 1, 49, 48, 61, 57, 57, 57, 1]
     231 75 (by rfl)⟩

/-- C5 — evaluation at the failing input
`"8=A\x019=11\x0110=000\x0158=<0x97>QQQQQQ\x01"`: every header check passes,
the final (last nonempty) segment splits as tag 58, not the checksum
tag 10, yet decode returns a message instead of failing with
`MissingChecksum`, because the code only records that *some* body segment
carried tag 10 (here a mid-body `10=000` whose folded value matches the
computed sum 1024 % 256 = 0).  This contradicts the parser's own
documentation ("The last field must be tag 10"; `MissingChecksum`: "Tag 10
is absent or not the final field"). -/
theorem C5_checksum_position_bug :
    parse [56, 61, 65, 1, 57, 61, 49, 49, 1, 49, 48, 61, 48, 48, 48, 1,
        53, 56, 61, 151, 81, 81, 81, 81, 81, 81, 1]
      = .ok ⟨[65], [], [(58, [])]⟩ ∧
    (fieldIter [56, 61, 65, 1, 57, 61, 49, 49, 1, 49, 48, 61, 48, 48, 48, 1,
        53, 56, 61, 151, 81, 81, 81, 81, 81, 81, 1]).getLast?
      = some [53, 56, 61, 151, 81, 81, 81, 81, 81, 81] ∧
    split_field [53, 56, 61, 151, 81, 81, 81, 81, 81, 81]
      = .ok (58, [151, 81, 81, 81, 81, 81, 81]) := by
  refine ⟨?_, ?_, ?_⟩ <;> rfl

/-- C8 — Checksum law: both the decoder's and the encoder's checksum
functions compute the byte sum modulo 256 exactly (despite the wrapping
32-bit accumulator); the empty sequence gives 0, and 256 repetitions of byte
0x01 wrap around to 0. -/
theorem C8_checksum_law :
    (∀ b : List Nat, compute_checksum b = b.sum % 256) ∧
    (∀ b : List Nat, builder_checksum b = b.sum % 256) ∧
    compute_checksum [] = 0 ∧
    compute_checksum (List.replicate 256 1) = 0 := by
  refine ⟨compute_checksum_eq_sum,
    fun b => by rw [builder_checksum_eq]; exact compute_checksum_eq_sum b, rfl, ?_⟩
  rw [compute_checksum_eq_sum, List.sum_replicate]
  norm_num

/-- One public operation either keeps the state or assigns LogonSent /
LogoutSent; none assigns Active. -/
theorem applyOp_state (s : FixSession) (op : SessionOp) :
    (applyOp s op).state = s.state ∨ (applyOp s op).state = .LogonSent ∨
      (applyOp s op).state = .LogoutSent := by
  cases op with
  | logon => right; left; rfl
  | logout => right; right; rfl
  | heartbeat => left; rfl
  | newOrder order symbol => left; rfl
  | validate seq =>
    left
    show ((s.validate_incoming_seq seq).2).state = s.state
    unfold FixSession.validate_incoming_seq
    split <;> rfl
  | nextSeq => left; rfl

/-- C9 — Implicit: the Active state is unreachable.  No finite sequence of
public sequencer operations applied to a fresh session ever reaches
`Active`; the state is always Disconnected, LogonSent or LogoutSent. -/
theorem C9_active_unreachable (sender target beginString : List Nat)
    (ops : List SessionOp) :
    (runOps (FixSession.new sender target beginString) ops).state ≠ .Active ∧
    ((runOps (FixSession.new sender target beginString) ops).state = .Disconnected ∨
     (runOps (FixSession.new sender target beginString) ops).state = .LogonSent ∨
     (runOps (FixSession.new sender target beginString) ops).state = .LogoutSent) := by
  have key : ∀ (l : List SessionOp) (s : FixSession),
      s.state ≠ .Active → (runOps s l).state ≠ .Active := by
    intro l
    induction l with
    | nil => intro s h; exact h
    | cons op l ih =>
      intro s h
      show (runOps (applyOp s op) l).state ≠ .Active
      apply ih
      rcases applyOp_state s op with h1 | h1 | h1 <;> rw [h1] <;> simp_all
  have hne := key ops (FixSession.new sender target beginString) (by simp [FixSession.new])
  refine ⟨hne, ?_⟩
  cases hst : (runOps (FixSession.new sender target beginString) ops).state
  · left; rfl
  · right; left; rfl
  · exact absurd hst hne
  · right; right; rfl

/-- C10 — frame property: every build operation leaves the expected-inbound
counter and the three identity strings unchanged; heartbeat and new-order
additionally leave the session state unchanged; inbound validation leaves
the outbound counter, the state and the identity strings unchanged on both
outcomes. -/
theorem C10_frame_effects (s : FixSession) (order : Order) (symbol : List Nat)
    (seq : Nat) :
    ((s.build_logon).2.incoming_seq = s.incoming_seq ∧
     (s.build_logon).2.sender_comp_id = s.sender_comp_id ∧
     (s.build_logon).2.target_comp_id = s.target_comp_id ∧
     (s.build_logon).2.begin_string = s.begin_string) ∧
    ((s.build_logout).2.incoming_seq = s.incoming_seq ∧
     (s.build_logout).2.sender_comp_id = s.sender_comp_id ∧
     (s.build_logout).2.target_comp_id = s.target_comp_id ∧
     (s.build_logout).2.begin_string = s.begin_string) ∧
    ((s.build_heartbeat).2.incoming_seq = s.incoming_seq ∧
     (s.build_heartbeat).2.sender_comp_id = s.sender_comp_id ∧
     (s.build_heartbeat).2.target_comp_id = s.target_comp_id ∧
     (s.build_heartbeat).2.begin_string = s.begin_string ∧
     (s.build_heartbeat).2.state = s.state) ∧
    ((s.build_new_order order symbol).2.incoming_seq = s.incoming_seq ∧
     (s.build_new_order order symbol).2.sender_comp_id = s.sender_comp_id ∧
     (s.build_new_order order symbol).2.target_comp_id = s.target_comp_id ∧
     (s.build_new_order order symbol).2.begin_string = s.begin_string ∧
     (s.build_new_order order symbol).2.state = s.state) ∧
    ((s.validate_incoming_seq seq).2.outgoing_seq = s.outgoing_seq ∧
     (s.validate_incoming_seq seq).2.state = s.state ∧
     (s.validate_incoming_seq seq).2.sender_comp_id = s.sender_comp_id ∧
     (s.validate_incoming_seq seq).2.target_comp_id = s.target_comp_id ∧
     (s.validate_incoming_seq seq).2.begin_string = s.begin_string) := by
  refine ⟨⟨rfl, rfl, rfl, rfl⟩, ⟨rfl, rfl, rfl, rfl⟩, ⟨rfl, rfl, rfl, rfl, rfl⟩,
    ⟨rfl, rfl, rfl, rfl, rfl⟩, ?_⟩
  unfold FixSession.validate_incoming_seq
  split <;> exact ⟨rfl, rfl, rfl, rfl, rfl⟩

/-- C7 — inbound validation law: success together with the expected-inbound
counter advancing by exactly one (as a `u64`) happens precisely when the
presented ordinal equals the current expected value; on any mismatch the
call returns failure and the whole session is left unchanged. -/
theorem C7_inbound_validation (s : FixSession) (seq : Nat) :
    (((s.validate_incoming_seq seq).1 = true ∧
      (s.validate_incoming_seq seq).2 =
        { s with incoming_seq := (s.incoming_seq + 1) % 18446744073709551616 })
      ↔ seq = s.incoming_seq) ∧
    (seq ≠ s.incoming_seq → s.validate_incoming_seq seq = (false, s)) := by
  have hmm : seq ≠ s.incoming_seq → s.validate_incoming_seq seq = (false, s) := by
    intro hne
    unfold FixSession.validate_incoming_seq
    rw [if_neg hne]
  refine ⟨⟨?_, ?_⟩, hmm⟩
  · rintro ⟨h1, -⟩
    by_contra hne
    rw [hmm hne] at h1
    simp at h1
  · intro he
    unfold FixSession.validate_incoming_seq
    rw [if_pos he]
    exact ⟨rfl, rfl⟩

/-- C7 witness — on a fresh session (expected = 1), presenting 2 fails and
leaves the session unchanged, and presenting 1 succeeds. -/
theorem C7_inbound_validation_witness :
    (FixSession.new [65] [66] [86]).validate_incoming_seq 2
      = (false, FixSession.new [65] [66] [86]) ∧
    ((FixSession.new [65] [66] [86]).validate_incoming_seq 1).1 = true :=
  ⟨(C7_inbound_validation (FixSession.new [65] [66] [86]) 2).2 (by decide),
   (((C7_inbound_validation (FixSession.new [65] [66] [86]) 1).1).mpr (by decide)).1⟩

/-- C6 — sequencer ordinal law: the outbound counter starts at 1; each of the
four build operations embeds the pre-increment ordinal as the value of the
sequence-number field 34 of the message it returns and bumps the `u64`
counter by one; on a fresh session the calls logon, heartbeat, heartbeat,
logout produce decodable messages of types "A", "0", "0", "5" carrying
ordinals "1", "2", "3", "4", and leave the session in LogoutSent. -/
theorem C6_sequencer_ordinals :
    (∀ sender target beginString : List Nat,
      (FixSession.new sender target beginString).outgoing_seq = 1) ∧
    (∀ s : FixSession,
      (s.build_logon).2.outgoing_seq = (s.outgoing_seq + 1) % 18446744073709551616 ∧
      (s.build_logon).1 = FixBuilder.build ⟨s.begin_string, [65],
        [(49, s.sender_comp_id), (56, s.target_comp_id), (34, natToDigits s.outgoing_seq)]⟩) ∧
    (∀ s : FixSession,
      (s.build_logout).2.outgoing_seq = (s.outgoing_seq + 1) % 18446744073709551616 ∧
      (s.build_logout).1 = FixBuilder.build ⟨s.begin_string, [53],
        [(49, s.sender_comp_id), (56, s.target_comp_id), (34, natToDigits s.outgoing_seq)]⟩) ∧
    (∀ s : FixSession,
      (s.build_heartbeat).2.outgoing_seq = (s.outgoing_seq + 1) % 18446744073709551616 ∧
      (s.build_heartbeat).1 = FixBuilder.build ⟨s.begin_string, [48],
        [(49, s.sender_comp_id), (56, s.target_comp_id), (34, natToDigits s.outgoing_seq)]⟩) ∧
    (∀ (s : FixSession) (order : Order) (symbol : List Nat),
      (s.build_new_order order symbol).2.outgoing_seq
        = (s.outgoing_seq + 1) % 18446744073709551616 ∧
      (s.build_new_order order symbol).1 = FixBuilder.build ⟨s.begin_string, [68],
        [(49, s.sender_comp_id), (56, s.target_comp_id), (34, natToDigits s.outgoing_seq),
         (11, natToDigits order.id), (55, symbol), (54, alice_side_to_fix order.side),
         (40, alice_ord_type_to_fix order.order_type), (44, intToDigits order.price),
         (38, natToDigits order.quantity), (59, alice_tif_to_fix order.time_in_force)]⟩) ∧
    ((parse (((FixSession.new [65, 76, 73, 67, 69] [66, 82, 79, 75, 69, 82]
          [70, 73, 88, 46, 52, 46, 52]).build_logon).1)).toOption.map
        (fun msg => (msg.msg_type, lookupField 34 msg.fields)) = some ([65], some [49]) ∧
     (parse ((((FixSession.new [65, 76, 73, 67, 69] [66, 82, 79, 75, 69, 82]
          [70, 73, 88, 46, 52, 46, 52]).build_logon).2.build_heartbeat).1)).toOption.map
        (fun msg => (msg.msg_type, lookupField 34 msg.fields)) = some ([48], some [50]) ∧
     (parse (((((FixSession.new [65, 76, 73, 67, 69] [66, 82, 79, 75, 69, 82]
          [70, 73, 88, 46, 52, 46, 52]).build_logon).2.build_heartbeat).2.build_heartbeat).1)).toOption.map
        (fun msg => (msg.msg_type, lookupField 34 msg.fields)) = some ([48], some [51]) ∧
     (parse ((((((FixSession.new [65, 76, 73, 67, 69] [66, 82, 79, 75, 69, 82]
          [70, 73, 88, 46, 52, 46, 52]).build_logon).2.build_heartbeat).2.build_heartbeat).2.build_logout).1)).toOption.map
        (fun msg => (msg.msg_type, lookupField 34 msg.fields)) = some ([53], some [52]) ∧
     (((((FixSession.new [65, 76, 73, 67, 69] [66, 82, 79, 75, 69, 82]
          [70, 73, 88, 46, 52, 46, 52]).build_logon).2.build_heartbeat).2.build_heartbeat).2.build_logout).2.state
        = SessionState.LogoutSent ∧
     (((((FixSession.new [65, 76, 73, 67, 69] [66, 82, 79, 75, 69, 82]
          [70, 73, 88, 46, 52, 46, 52]).build_logon).2.build_heartbeat).2.build_heartbeat).2.build_logout).2.outgoing_seq
        = 5) := by
  refine ⟨fun _ _ _ => rfl, fun s => ⟨rfl, rfl⟩, fun s => ⟨rfl, rfl⟩, fun s => ⟨rfl, rfl⟩,
    fun s order symbol => ⟨rfl, rfl⟩, ?_, ?_, ?_, ?_, rfl, rfl⟩ <;> rfl
